import Mathlib

/-!
Formal model of the PolicyMe Cortex claim-analysis service (`api/main.py`).

The service consists of a rule-based fraud scorer (`calculate_fraud_score`),
a claim adjudicator (`ai_analyze_claim`) that either runs a deterministic
fallback (no AI credential) or consults an external generative-AI collaborator
and falls back on any failure, and a request handler (`analyze_claim`) that
composes the two and derives a claim status.

Modelling conventions:
* Python floats that only ever hold exactly representable small decimals are
  modelled as rationals (`ℚ`); `round(x, 2)` is modelled as round-half-even at
  two decimals (`pyRound2`).
* Python's `Optional[float]` field `claimedAmount` is `Option ℚ`; a JSON
  `null` is `none`.  Operations that raise in Python return `Except PyError`.
* `datetime.fromisoformat` is modelled by `pyFromisoformat`, covering
  `YYYY-MM-DD` optionally followed by a one-character separator and a
  `HH:MM[:SS[.frac]][±HH:MM[:SS]]` time part, with calendar validation.
  `datetime.weekday` is `pyWeekday` (0 = Monday .. 6 = Sunday).
* `json.loads` is modelled by `json_loads` over the `JsonVal` AST (strings
  with the common escapes, numbers, booleans, null, arrays, objects).
* Python string ops are modelled on `List Char`: `strip` (`pyStrip`),
  substring test `in` (`pyIn`), `replace` (`pyReplace`), `lower` (`pyLower`),
  and the `s.split(sep)[0]` / `s.split(sep)[1]` idioms (`pySplitAt0`,
  `pySplitAt1`), all splitting on leftmost non-overlapping occurrences.
* `str(e)` for a caught exception is modelled by `pyErrorStr`, one fixed
  string per exception class (message details are not modelled).
-/

/-! ### Python string primitives -/

/-- Characters stripped by Python's default `str.strip()` (ASCII whitespace). -/
def pyIsSpace (c : Char) : Bool :=
  c = ' ' ∨ c = '\t' ∨ c = '\n' ∨ c = '\x0d' ∨ c = '\x0b' ∨ c = '\x0c'

/-- Model of `str.strip()` on the character list. -/
def stripList (l : List Char) : List Char :=
  ((l.dropWhile pyIsSpace).reverse.dropWhile pyIsSpace).reverse

/-- Model of `str.strip()`. -/
def pyStrip (s : String) : String := ⟨stripList s.data⟩

/-- Leftmost occurrence of `sep`: `splitFirst sep l = some (pre, post)` when
`l = pre ++ sep ++ post` at the first occurrence of `sep`, `none` when `sep`
does not occur in `l`. -/
def splitFirst (sep : List Char) : List Char → Option (List Char × List Char)
  | [] => if sep.isPrefixOf ([] : List Char) then some ([], []) else none
  | c :: l =>
    if sep.isPrefixOf (c :: l) then some ([], (c :: l).drop sep.length)
    else
      match splitFirst sep l with
      | some (pre, post) => some (c :: pre, post)
      | none => none

/-- Model of Python's substring test `sub in s`. -/
def pyIn (sub s : String) : Bool := (splitFirst sub.data s.data).isSome

/-- Replace every non-overlapping occurrence of `old` (leftmost first), on
lists, with fuel for termination. -/
def replaceCore (old new : List Char) : Nat → List Char → List Char
  | 0, l => l
  | fuel + 1, l =>
    match splitFirst old l with
    | none => l
    | some (pre, post) => pre ++ new ++ replaceCore old new fuel post

/-- Model of `str.replace(old, new)` (all occurrences). -/
def pyReplace (s old new : String) : String :=
  ⟨replaceCore old.data new.data (s.data.length + 1) s.data⟩

/-- Model of the Python idiom `s.split(sep)[0]`: the text before the first
occurrence of `sep`, or all of `s` when `sep` does not occur. -/
def pySplitAt0 (s sep : String) : String :=
  match splitFirst sep.data s.data with
  | some (pre, _) => ⟨pre⟩
  | none => s

/-- Model of the Python idiom `s.split(sep)[1]`: the text between the first
and second occurrences of `sep` (to the end when `sep` occurs once).  In
Python this raises `IndexError` when `sep` does not occur; the callers in the
source guard it with `sep in s`, so that case is modelled as `""`. -/
def pySplitAt1 (s sep : String) : String :=
  match splitFirst sep.data s.data with
  | some (_, post) =>
    match splitFirst sep.data post with
    | some (pre2, _) => ⟨pre2⟩
    | none => ⟨post⟩
  | none => ""

/-- Model of `str.lower()` (ASCII case folding). -/
def pyLower (s : String) : String := ⟨s.data.map Char.toLower⟩

/-! ### Calendar arithmetic and `datetime.fromisoformat` -/

/-- Gregorian leap year. -/
def isLeapYear (y : Nat) : Bool := (y % 4 = 0 ∧ y % 100 ≠ 0) ∨ y % 400 = 0

/-- Days in a month of the Gregorian calendar. -/
def daysInMonth (y m : Nat) : Nat :=
  if m = 2 then (if isLeapYear y then 29 else 28)
  else if m = 4 ∨ m = 6 ∨ m = 9 ∨ m = 11 then 30
  else 31

/-- Days from 1970-01-01 to the civil date `y-m-d` (Gregorian, `y ≥ 1`). -/
def daysFromCivil (y m d : Nat) : ℤ :=
  let yy := if m ≤ 2 then y - 1 else y
  let era := yy / 400
  let yoe := yy % 400
  let mp := if 2 < m then m - 3 else m + 9
  let doy := (153 * mp + 2) / 5 + d - 1
  let doe := yoe * 365 + yoe / 4 - yoe / 100 + doy
  (era * 146097 + doe : ℤ) - 719468

/-- Model of `datetime.weekday()`: 0 = Monday .. 6 = Sunday
(1970-01-01 was a Thursday, weekday 3). -/
def pyWeekday (y m d : Nat) : Nat := ((daysFromCivil y m d + 3) % 7).toNat

/-- Parse exactly `n` decimal digits, returning their value and the rest. -/
def parseNDigits : Nat → List Char → Option (Nat × List Char)
  | 0, cs => some (0, cs)
  | _ + 1, [] => none
  | n + 1, c :: cs =>
    if c.isDigit then
      match parseNDigits n cs with
      | some (v, rest) => some ((c.toNat - 48) * 10 ^ n + v, rest)
      | none => none
    else none

/-- Valid UTC-offset tail `[±HH:MM[:SS]]` of an ISO time (empty allowed). -/
def validOffset : List Char → Bool
  | [] => true
  | c :: cs =>
    if c = '+' ∨ c = '-' then
      match parseNDigits 2 cs with
      | some (hh, ':' :: cs2) =>
        decide (hh < 24) &&
          (match parseNDigits 2 cs2 with
           | some (mm, cs3) =>
             decide (mm < 60) &&
               (match cs3 with
                | [] => true
                | ':' :: cs4 =>
                  match parseNDigits 2 cs4 with
                  | some (ss, []) => decide (ss < 60)
                  | _ => false
                | _ => false)
           | none => false)
      | _ => false
    else false

/-- Valid fractional-seconds tail: one to six digits then an optional offset. -/
def validFracTail (cs : List Char) : Bool :=
  let ds := cs.takeWhile Char.isDigit
  decide (1 ≤ ds.length ∧ ds.length ≤ 6) && validOffset (cs.dropWhile Char.isDigit)

/-- Valid seconds tail `SS[.frac][offset]` of an ISO time. -/
def validSecTail (cs : List Char) : Bool :=
  match parseNDigits 2 cs with
  | some (ss, rest) =>
    decide (ss < 60) &&
      (match rest with
       | [] => true
       | '.' :: cs2 => validFracTail cs2
       | _ => validOffset rest)
  | none => false

/-- Valid ISO time part `HH:MM[:SS[.frac]][offset]`. -/
def validTime (cs : List Char) : Bool :=
  match parseNDigits 2 cs with
  | some (hh, ':' :: cs2) =>
    decide (hh < 24) &&
      (match parseNDigits 2 cs2 with
       | some (mm, rest) =>
         decide (mm < 60) &&
           (match rest with
            | [] => true
            | ':' :: cs3 => validSecTail cs3
            | _ => validOffset rest)
       | none => false)
  | _ => false

/-- Model of `datetime.fromisoformat`, returning the civil date on success:
`YYYY-MM-DD`, optionally followed by one separator character and a valid time
part.  Returns `none` exactly when Python raises `ValueError`. -/
def pyFromisoformat (s : String) : Option (Nat × Nat × Nat) :=
  match s.data with
  | y1 :: y2 :: y3 :: y4 :: '-' :: m1 :: m2 :: '-' :: d1 :: d2 :: rest =>
    if y1.isDigit && y2.isDigit && y3.isDigit && y4.isDigit &&
       m1.isDigit && m2.isDigit && d1.isDigit && d2.isDigit then
      let y := (y1.toNat - 48) * 1000 + (y2.toNat - 48) * 100 + (y3.toNat - 48) * 10 + (y4.toNat - 48)
      let m := (m1.toNat - 48) * 10 + (m2.toNat - 48)
      let d := (d1.toNat - 48) * 10 + (d2.toNat - 48)
      if 1 ≤ y ∧ 1 ≤ m ∧ m ≤ 12 ∧ 1 ≤ d ∧ d ≤ daysInMonth y m then
        match rest with
        | [] => some (y, m, d)
        | _ :: timeCs => if validTime timeCs then some (y, m, d) else none
      else none
    else none
  | _ => none

/-! ### Python `round(x, 2)` -/

/-- Round-half-even to the nearest integer. -/
def roundHalfEven (x : ℚ) : ℤ :=
  let n := ⌊x⌋
  let r := x - n
  if r < 1 / 2 then n
  else if 1 / 2 < r then n + 1
  else if 2 ∣ n then n else n + 1

/-- Model of Python's `round(x, 2)`. -/
def pyRound2 (x : ℚ) : ℚ := (roundHalfEven (x * 100) : ℚ) / 100

/-! ### JSON values and `json.loads` -/

/-- JSON value AST produced by `json.loads` (numbers as rationals). -/
inductive JsonVal where
  | str (s : String)
  | num (q : ℚ)
  | bool (b : Bool)
  | null
  | arr (xs : List JsonVal)
  | obj (kvs : List (String × JsonVal))

/-- JSON insignificant whitespace. -/
def jsonWs (c : Char) : Bool := c = ' ' ∨ c = '\t' ∨ c = '\n' ∨ c = '\x0d'

/-- Drop leading JSON whitespace. -/
def skipJsonWs (cs : List Char) : List Char := cs.dropWhile jsonWs

/-- JSON string escape characters (`\uXXXX` escapes are not modelled). -/
def escChar : Char → Option Char
  | '\"' => some '\"'
  | '\\' => some '\\'
  | '/' => some '/'
  | 'n' => some '\n'
  | 't' => some '\t'
  | 'r' => some '\x0d'
  | 'b' => some '\x08'
  | 'f' => some '\x0c'
  | _ => none

/-- Parse the body of a JSON string literal (after the opening quote), up to
and including the closing quote. -/
def parseJsonStringChars : List Char → Option (List Char × List Char)
  | [] => none
  | '\"' :: rest => some ([], rest)
  | '\\' :: e :: rest =>
    match escChar e with
    | some c =>
      match parseJsonStringChars rest with
      | some (chars, rest2) => some (c :: chars, rest2)
      | none => none
    | none => none
  | c :: rest =>
    match parseJsonStringChars rest with
    | some (chars, rest2) => some (c :: chars, rest2)
    | none => none

/-- Digit list to natural number value. -/
def digitsVal (ds : List Char) : Nat := ds.foldl (fun a c => a * 10 + (c.toNat - 48)) 0

/-- Optional JSON exponent part; returns the exponent and the rest. -/
def parseJsonExp : List Char → Option (ℤ × List Char)
  | [] => some (0, [])
  | c :: t =>
    if c = 'e' ∨ c = 'E' then
      let p : ℤ × List Char :=
        match t with
        | '+' :: u => (1, u)
        | '-' :: u => (-1, u)
        | u => (1, u)
      let es := p.2.takeWhile Char.isDigit
      if es = [] then none
      else some (p.1 * digitsVal es, p.2.dropWhile Char.isDigit)
    else some (0, c :: t)

/-- Parse a JSON number starting at the head of the list. -/
def parseJsonNumber (cs : List Char) : Option (ℚ × List Char) :=
  let p : Bool × List Char := match cs with | '-' :: t => (true, t) | t => (false, t)
  let ds := p.2.takeWhile Char.isDigit
  let cs2 := p.2.dropWhile Char.isDigit
  if ds = [] then none
  else
    match cs2 with
    | '.' :: t =>
      let fs := t.takeWhile Char.isDigit
      if fs = [] then none
      else
        match parseJsonExp (t.dropWhile Char.isDigit) with
        | some (e, cs4) =>
          some ((if p.1 then -1 else 1) * ((digitsVal ds : ℚ) + (digitsVal fs : ℚ) / 10 ^ fs.length) * (10 : ℚ) ^ e, cs4)
        | none => none
    | _ =>
      match parseJsonExp cs2 with
      | some (e, cs3) => some ((if p.1 then -1 else 1) * (digitsVal ds : ℚ) * (10 : ℚ) ^ e, cs3)
      | none => none

/-- Recursive-descent JSON value parser with fuel.  The element and member
loops of arrays and objects recurse through the value parser itself by
re-prepending the opening bracket to the unconsumed tail. -/
def parseJsonVal : Nat → List Char → Option (JsonVal × List Char)
  | 0, _ => none
  | fuel + 1, cs =>
    match skipJsonWs cs with
    | [] => none
    | '\"' :: rest =>
      (match parseJsonStringChars rest with
       | some (chars, rest2) => some (JsonVal.str ⟨chars⟩, rest2)
       | none => none)
    | 't' :: 'r' :: 'u' :: 'e' :: rest => some (JsonVal.bool true, rest)
    | 'f' :: 'a' :: 'l' :: 's' :: 'e' :: rest => some (JsonVal.bool false, rest)
    | 'n' :: 'u' :: 'l' :: 'l' :: rest => some (JsonVal.null, rest)
    | '[' :: rest =>
      (match skipJsonWs rest with
       | ']' :: rest2 => some (JsonVal.arr [], rest2)
       | cs2 =>
         match parseJsonVal fuel cs2 with
         | some (v, rest2) =>
           (match skipJsonWs rest2 with
            | ',' :: rest3 =>
              (match skipJsonWs rest3 with
               | ']' :: _ => none
               | _ =>
                 match parseJsonVal fuel ('[' :: rest3) with
                 | some (JsonVal.arr vs, rest4) => some (JsonVal.arr (v :: vs), rest4)
                 | _ => none)
            | ']' :: rest3 => some (JsonVal.arr [v], rest3)
            | _ => none)
         | none => none)
    | c :: rest =>
      if c = Char.ofNat 123 then
        (match skipJsonWs rest with
         | [] => none
         | c2 :: rest2 =>
           if c2 = Char.ofNat 125 then some (JsonVal.obj [], rest2)
           else
             match skipJsonWs rest with
             | '\"' :: krest =>
               (match parseJsonStringChars krest with
                | some (kchars, rest3) =>
                  (match skipJsonWs rest3 with
                   | ':' :: rest4 =>
                     (match parseJsonVal fuel rest4 with
                      | some (v, rest5) =>
                        (match skipJsonWs rest5 with
                         | ',' :: rest6 =>
                           (match skipJsonWs rest6 with
                            | '\"' :: _ =>
                              (match parseJsonVal fuel (Char.ofNat 123 :: rest6) with
                               | some (JsonVal.obj kvs, rest7) =>
                                 some (JsonVal.obj ((⟨kchars⟩, v) :: kvs), rest7)
                               | _ => none)
                            | _ => none)
                         | c3 :: rest6 =>
                           if c3 = Char.ofNat 125 then some (JsonVal.obj [(⟨kchars⟩, v)], rest6)
                           else none
                         | [] => none)
                      | none => none)
                   | _ => none)
                | none => none)
             | _ => none)
      else if c = '-' ∨ c.isDigit then
        match parseJsonNumber (c :: rest) with
        | some (q, rest2) => some (JsonVal.num q, rest2)
        | none => none
      else none

/-- Errors raised by the modelled Python operations. -/
inductive PyError where
  | typeError
  | valueError
  | attributeError
  | jsonDecodeError
  | apiError (msg : String)
deriving DecidableEq

/-- Model of `str(e)` for a caught exception: one fixed rendering per
exception class (`apiError` carries the collaborator's error text). -/
def pyErrorStr : PyError → String
  | .typeError => "TypeError"
  | .valueError => "ValueError"
  | .attributeError => "AttributeError"
  | .jsonDecodeError => "Expecting value"
  | .apiError msg => msg

/-- Model of `json.loads`: parse one JSON value, allowing surrounding
whitespace, failing on any trailing content. -/
def json_loads (s : String) : Except PyError JsonVal :=
  match parseJsonVal (s.data.length + 1) s.data with
  | some (v, rest) => if skipJsonWs rest = [] then .ok v else .error .jsonDecodeError
  | none => .error .jsonDecodeError

/-- Model of Python `float(x)` on a string argument. -/
def parsePyFloatString (s : String) : Option ℚ :=
  let cs := stripList s.data
  let p : Bool × List Char :=
    match cs with
    | '+' :: t => (false, t)
    | '-' :: t => (true, t)
    | t => (false, t)
  let ds := p.2.takeWhile Char.isDigit
  let cs2 := p.2.dropWhile Char.isDigit
  match cs2 with
  | '.' :: t =>
    let fs := t.takeWhile Char.isDigit
    if ds = [] ∧ fs = [] then none
    else
      match parseJsonExp (t.dropWhile Char.isDigit) with
      | some (e, []) =>
        some ((if p.1 then -1 else 1) * ((digitsVal ds : ℚ) + (digitsVal fs : ℚ) / 10 ^ fs.length) * (10 : ℚ) ^ e)
      | _ => none
  | _ =>
    if ds = [] then none
    else
      match parseJsonExp cs2 with
      | some (e, []) => some ((if p.1 then -1 else 1) * (digitsVal ds : ℚ) * (10 : ℚ) ^ e)
      | _ => none

/-- Model of Python `float(x)` on a JSON value (`bool` is an `int` in
Python; `None`, lists and dicts raise `TypeError`). -/
def pyFloat : JsonVal → Except PyError ℚ
  | .num q => .ok q
  | .str s =>
    match parsePyFloatString s with
    | some q => .ok q
    | none => .error .valueError
  | .bool b => .ok (if b then 1 else 0)
  | _ => .error .typeError

/-- Model of Python `dict.get` lookup (`json.loads` keeps the last duplicate
key, hence the reverse search). -/
def dictGet (kvs : List (String × JsonVal)) (k : String) : Option JsonVal :=
  (kvs.reverse.find? (fun p => p.1 == k)).map (fun p => p.2)

/-- Pydantic validation of a `str` field (no cross-type coercion). -/
def asStr : JsonVal → Except PyError String
  | .str s => .ok s
  | _ => .error .valueError

/-- Pydantic validation of a `List[str]` field. -/
def asStrList : JsonVal → Except PyError (List String)
  | .arr xs =>
    xs.foldr
      (fun x acc =>
        match x, acc with
        | .str s, .ok l => .ok (s :: l)
        | _, _ => .error .valueError)
      (.ok [])
  | _ => .error .valueError

/-! ### Data model (the pydantic models of `api/main.py`) -/

/-- `IncidentData`: `claimedAmount` is `Optional[float]` with default `0.0`,
so an explicit JSON `null` is accepted and stored as `none`. -/
structure IncidentData where
  location : String
  dateTime : String
  description : String
  injuries : Bool
  propertyDamage : Bool
  claimedAmount : Option ℚ
deriving DecidableEq

/-- `ClaimAnalysisRequest`. -/
structure ClaimAnalysisRequest where
  incidentData : IncidentData
  policyId : Option String
deriving DecidableEq

/-- `FraudScore`. -/
structure FraudScore where
  score : ℚ
  risk_level : String
  indicators : List String
  confidence : ℚ
deriving DecidableEq

/-- `AIAnalysis`. -/
structure AIAnalysis where
  validity : String
  recommendation : String
  estimated_payout : ℚ
  red_flags : List String
  reasoning : String
deriving DecidableEq

/-- `ClaimAnalysisResponse`. -/
structure ClaimAnalysisResponse where
  claim_id : String
  fraud_score : FraudScore
  ai_analysis : AIAnalysis
  status : String
  created_at : String
deriving DecidableEq

/-! ### The fraud scorer (`calculate_fraud_score`) -/

/-- The rule-2 keyword test:
`any(word in incident.description.lower() for word in [...])`. -/
def hasHighRiskKeyword (description : String) : Bool :=
  ["stolen", "total loss", "fire", "flood"].any (fun word => pyIn word (pyLower description))

/-- The rule-3 weekend test:
`datetime.fromisoformat(incident.dateTime.replace('Z', '+00:00')).weekday() >= 5`,
`False` when the timestamp fails to parse (the `except: pass`). -/
def weekendIncident (dateTime : String) : Bool :=
  match pyFromisoformat (pyReplace dateTime "Z" "+00:00") with
  | some (y, m, d) => decide (5 ≤ pyWeekday y m d)
  | none => false

/-- The accumulated raw score of `calculate_fraud_score` (the five `score +=`
rules, in source order), given a numeric `claimedAmount`. -/
def fraudRawScore (incident : IncidentData) (claimedAmount : ℚ) : ℚ :=
  (if 50000 < claimedAmount then 25 else 0)
  + (if incident.description.length < 50 then 15
     else if hasHighRiskKeyword incident.description then 20 else 0)
  + (if weekendIncident incident.dateTime then 10 else 0)
  + (if incident.injuries && incident.propertyDamage then 15 else 0)
  + (if incident.location = "" ∨ incident.location.length < 5 then 10 else 0)

/-- The accumulated indicator list of `calculate_fraud_score` (the
`indicators.append` calls, in source order). -/
def fraudIndicators (incident : IncidentData) (claimedAmount : ℚ) : List String :=
  (if 50000 < claimedAmount then ["High claim amount"] else [])
  ++ (if incident.description.length < 50 then ["Insufficient details"]
      else if hasHighRiskKeyword incident.description then ["High-risk incident type"] else [])
  ++ (if weekendIncident incident.dateTime then ["Weekend incident"] else [])
  ++ (if incident.injuries && incident.propertyDamage then ["Multiple damage types"] else [])
  ++ (if incident.location = "" ∨ incident.location.length < 5 then ["Vague location"] else [])

/-- Model of `calculate_fraud_score`.  A `none` (Python `None`)
`claimedAmount` raises `TypeError` at `incident.claimedAmount > 50000`. -/
def calculate_fraud_score (incident : IncidentData) : Except PyError FraudScore :=
  match incident.claimedAmount with
  | none => .error PyError.typeError
  | some claimedAmount =>
    if min (fraudRawScore incident claimedAmount) 100 < 30 then
      .ok ⟨pyRound2 (min (fraudRawScore incident claimedAmount) 100), "Low",
           fraudIndicators incident claimedAmount, 0.85⟩
    else if min (fraudRawScore incident claimedAmount) 100 < 60 then
      .ok ⟨pyRound2 (min (fraudRawScore incident claimedAmount) 100), "Medium",
           fraudIndicators incident claimedAmount, 0.75⟩
    else
      .ok ⟨pyRound2 (min (fraudRawScore incident claimedAmount) 100), "High",
           fraudIndicators incident claimedAmount, 0.90⟩

/-! ### The adjudicator (`ai_analyze_claim`) -/

/-- The markdown code-fence stripping of the AI response:
`result_text.split("```json")[1].split("```")[0]` when "```json" occurs,
else the same with "```" when it occurs, else the text unchanged. -/
def fenceExtract (result_text : String) : String :=
  if pyIn "```json" result_text then
    pySplitAt0 (pySplitAt1 result_text "```json") "```"
  else if pyIn "```" result_text then
    pySplitAt0 (pySplitAt1 result_text "```") "```"
  else result_text

/-- The body of the `try` block of `ai_analyze_claim` after the collaborator
responded: strip, unfence, `json.loads`, then build the `AIAnalysis` with the
per-field defaults.  The default for `estimated_payout` —
`incident.claimedAmount * 0.8` — is evaluated eagerly by Python's `dict.get`,
so it raises `TypeError` on a `none` amount even when the key is present;
field validation happens at `AIAnalysis(...)` construction, after all
arguments are evaluated. -/
def tryBuildAnalysis (incident : IncidentData) (fraud_score : FraudScore) (text : String) :
    Except PyError AIAnalysis :=
  let t1 := pyStrip text
  let t2 := fenceExtract t1
  match json_loads (pyStrip t2) with
  | .error e => .error e
  | .ok (JsonVal.obj kvs) =>
    let vVal := (dictGet kvs "validity").getD (JsonVal.str "needs_review")
    let rVal := (dictGet kvs "recommendation").getD (JsonVal.str "manual_review")
    (match incident.claimedAmount with
     | none => .error PyError.typeError
     | some claimedAmount =>
       match pyFloat ((dictGet kvs "estimated_payout").getD (JsonVal.num (claimedAmount * 0.8))) with
       | .error e => .error e
       | .ok estimated_payout =>
         let fVal := (dictGet kvs "red_flags").getD (JsonVal.arr (fraud_score.indicators.map JsonVal.str))
         let sVal := (dictGet kvs "reasoning").getD (JsonVal.str "AI analysis completed")
         match asStr vVal, asStr rVal, asStrList fVal, asStr sVal with
         | .ok validity, .ok recommendation, .ok red_flags, .ok reasoning =>
           .ok ⟨validity, recommendation, estimated_payout, red_flags, reasoning⟩
         | .error e, _, _, _ => .error e
         | _, .error e, _, _ => .error e
         | _, _, .error e, _ => .error e
         | _, _, _, .error e => .error e)
  | .ok _ => .error PyError.attributeError

/-- The whole `try` block: the collaborator call (modelled by the
`genContent` outcome) followed by response processing. -/
def aiAttempt (genContent : Except PyError String) (incident : IncidentData)
    (fraud_score : FraudScore) : Except PyError AIAnalysis :=
  match genContent with
  | .error e => .error e
  | .ok text => tryBuildAnalysis incident fraud_score text

/-- Model of `ai_analyze_claim`.  `geminiKey` is the `GEMINI_API_KEY`
configuration (`""` = not configured); `genContent` is the outcome of
`model.generate_content(prompt).text`. -/
def ai_analyze_claim (geminiKey : String) (genContent : Except PyError String)
    (incident : IncidentData) (fraud_score : FraudScore) : Except PyError AIAnalysis :=
  if geminiKey = "" then
    match incident.claimedAmount with
    | none => .error PyError.typeError
    | some claimedAmount =>
      .ok ⟨if 40 < fraud_score.score then "needs_review" else "valid",
           if 40 < fraud_score.score then "manual_review" else "auto_approve",
           pyRound2 (claimedAmount * (if 60 < fraud_score.score then 0.6 else 0.85)),
           fraud_score.indicators,
           "Automated analysis based on rule-based system. Configure GEMINI_API_KEY for advanced AI insights."⟩
  else
    match aiAttempt genContent incident fraud_score with
    | .ok a => .ok a
    | .error e =>
      match incident.claimedAmount with
      | none => .error PyError.typeError
      | some claimedAmount =>
        .ok ⟨if 40 < fraud_score.score then "needs_review" else "valid",
             if 40 < fraud_score.score then "manual_review" else "auto_approve",
             pyRound2 (claimedAmount * (if 60 < fraud_score.score then 0.6 else 0.85)),
             fraud_score.indicators,
             "AI analysis fallback due to error: " ++ pyErrorStr e⟩

/-! ### The request handler (`analyze_claim`) -/

/-- The claim-status derivation of `analyze_claim`. -/
def deriveStatus (recommendation : String) (score : ℚ) : String :=
  if recommendation = "auto_approve" ∧ score < 30 then "approved"
  else if recommendation = "reject" ∨ 80 < score then "flagged"
  else "processing"

/-- Model of the `POST /api/claims/analyze` handler.  `now` stands for the
`datetime.utcnow()` strings used for the claim id and creation timestamp. -/
def analyze_claim (geminiKey : String) (genContent : Except PyError String) (now : String)
    (request : ClaimAnalysisRequest) : Except PyError ClaimAnalysisResponse :=
  match calculate_fraud_score request.incidentData with
  | .error e => .error e
  | .ok fraud_score =>
    match ai_analyze_claim geminiKey genContent request.incidentData fraud_score with
    | .error e => .error e
    | .ok ai_analysis =>
      .ok ⟨"CLM-" ++ now, fraud_score, ai_analysis,
           deriveStatus ai_analysis.recommendation fraud_score.score, now⟩

/-! ### Markdown fence wrappers (for the fenced-response claims) -/

/-- A response body wrapped in ```json fences. -/
def wrapJsonFence (body : String) : String := "```json\n" ++ body ++ "\n```"

/-- A response body wrapped in plain ``` fences. -/
def wrapPlainFence (body : String) : String := "```\n" ++ body ++ "\n```"

/-! ### Basic arithmetic lemmas -/

-- A `DecidableEq` instance for `Except`, for evaluating concrete runs.
deriving instance DecidableEq for Except

theorem roundHalfEven_intCast (m : ℤ) : roundHalfEven (m : ℚ) = m := by
  simp [roundHalfEven, Int.floor_intCast]

theorem pyRound2_natCast (n : ℕ) : pyRound2 (n : ℚ) = n := by
  have h : ((n : ℚ) * 100) = ((n * 100 : ℤ) : ℚ) := by push_cast; ring
  rw [pyRound2, h, roundHalfEven_intCast]
  push_cast
  field_simp

/-! ### Structure of the raw fraud score -/

/-- The raw score as a natural number (same rule weights as
`fraudRawScore`). -/
def fraudRawScoreN (incident : IncidentData) (claimedAmount : ℚ) : ℕ :=
  (if 50000 < claimedAmount then 25 else 0)
  + (if incident.description.length < 50 then 15
     else if hasHighRiskKeyword incident.description then 20 else 0)
  + (if weekendIncident incident.dateTime then 10 else 0)
  + (if incident.injuries && incident.propertyDamage then 15 else 0)
  + (if incident.location = "" ∨ incident.location.length < 5 then 10 else 0)

theorem fraudRawScore_eq_cast (incident : IncidentData) (amt : ℚ) :
    fraudRawScore incident amt = (fraudRawScoreN incident amt : ℚ) := by
  unfold fraudRawScore fraudRawScoreN
  split_ifs <;> norm_num

theorem fraudRawScoreN_le (incident : IncidentData) (amt : ℚ) :
    fraudRawScoreN incident amt ≤ 80 := by
  unfold fraudRawScoreN
  split_ifs <;> omega

theorem fraudRawScoreN_dvd (incident : IncidentData) (amt : ℚ) :
    5 ∣ fraudRawScoreN incident amt := by
  unfold fraudRawScoreN
  split_ifs <;> decide

theorem fraudRawScore_nonneg (incident : IncidentData) (amt : ℚ) :
    0 ≤ fraudRawScore incident amt := by
  rw [fraudRawScore_eq_cast]
  positivity

theorem fraudRawScore_le_80 (incident : IncidentData) (amt : ℚ) :
    fraudRawScore incident amt ≤ 80 := by
  rw [fraudRawScore_eq_cast]
  exact_mod_cast fraudRawScoreN_le incident amt

theorem min_fraudRawScore (incident : IncidentData) (amt : ℚ) :
    min (fraudRawScore incident amt) 100 = fraudRawScore incident amt :=
  min_eq_left (le_trans (fraudRawScore_le_80 incident amt) (by norm_num))

theorem pyRound2_fraudRawScore (incident : IncidentData) (amt : ℚ) :
    pyRound2 (fraudRawScore incident amt) = fraudRawScore incident amt := by
  rw [fraudRawScore_eq_cast]
  exact pyRound2_natCast _

/-- Closed form of a successful scorer run: the returned score is the raw
sum, the tier is read off the raw sum, the indicators are the accumulated
list. -/
theorem calculate_fraud_score_eq (incident : IncidentData) (amt : ℚ)
    (h : incident.claimedAmount = some amt) :
    calculate_fraud_score incident =
      .ok ⟨fraudRawScore incident amt,
           if fraudRawScore incident amt < 30 then "Low"
           else if fraudRawScore incident amt < 60 then "Medium" else "High",
           fraudIndicators incident amt,
           if fraudRawScore incident amt < 30 then 0.85
           else if fraudRawScore incident amt < 60 then 0.75 else 0.90⟩ := by
  unfold calculate_fraud_score
  rw [h]
  dsimp only
  rw [min_fraudRawScore incident amt, pyRound2_fraudRawScore incident amt]
  split_ifs <;> rfl

theorem calc_ok_some_amount {incident : IncidentData} {fs : FraudScore}
    (h : calculate_fraud_score incident = .ok fs) :
    ∃ amt, incident.claimedAmount = some amt := by
  cases hA : incident.claimedAmount with
  | none => rw [calculate_fraud_score, hA] at h; exact absurd h (by simp)
  | some amt => exact ⟨amt, rfl⟩

/-- Membership in a singleton-or-empty conditional. -/
theorem mem_if_singleton {a s : String} {c : Prop} [Decidable c]
    (h : a ∈ (if c then [s] else [])) : a = s := by
  split at h <;> simp_all

/-! ### Status-derivation lemmas -/

theorem deriveStatus_approved_iff (rec : String) (score : ℚ) :
    deriveStatus rec score = "approved" ↔ rec = "auto_approve" ∧ score < 30 := by
  unfold deriveStatus
  split_ifs with h1 h2
  · exact iff_of_true rfl h1
  · exact iff_of_false (by decide) h1
  · exact iff_of_false (by decide) h1

theorem deriveStatus_flagged_iff (rec : String) (score : ℚ) :
    deriveStatus rec score = "flagged" ↔
      ¬(rec = "auto_approve" ∧ score < 30) ∧ (rec = "reject" ∨ 80 < score) := by
  unfold deriveStatus
  split_ifs with h1 h2
  · exact iff_of_false (by decide) (fun h => h.1 h1)
  · exact iff_of_true rfl ⟨h1, h2⟩
  · exact iff_of_false (by decide) (fun h => h2 h.2)

theorem deriveStatus_processing_iff (rec : String) (score : ℚ) :
    deriveStatus rec score = "processing" ↔
      ¬(rec = "auto_approve" ∧ score < 30) ∧ ¬(rec = "reject" ∨ 80 < score) := by
  unfold deriveStatus
  split_ifs with h1 h2
  · exact iff_of_false (by decide) (fun h => h.1 h1)
  · exact iff_of_false (by decide) (fun h => h.2 h2)
  · exact iff_of_true rfl ⟨h1, h2⟩

/-! ### Claim theorems -/

theorem ai_no_key_run (gc : Except PyError String) (incident : IncidentData)
    (fs : FraudScore) (amt : ℚ) (hamt : incident.claimedAmount = some amt) :
    ai_analyze_claim "" gc incident fs =
      .ok ⟨if 40 < fs.score then "needs_review" else "valid",
           if 40 < fs.score then "manual_review" else "auto_approve",
           pyRound2 (amt * (if 60 < fs.score then 0.6 else 0.85)),
           fs.indicators,
           "Automated analysis based on rule-based system. Configure GEMINI_API_KEY for advanced AI insights."⟩ := by
  simp [ai_analyze_claim, hamt]

/-- Claim C1: with no AI credential configured, the adjudicator returns
exactly the deterministic fallback: validity `needs_review` and
recommendation `manual_review` when the fraud score exceeds 40, else `valid`
and `auto_approve`; the payout is `claimedAmount × 0.6` above score 60 and
`claimedAmount × 0.85` otherwise, rounded to two decimals; and the red flags
are the fraud assessment's indicators verbatim. -/
theorem no_key_fallback_rule (gc : Except PyError String) (incident : IncidentData)
    (fs : FraudScore) (amt : ℚ) (hamt : incident.claimedAmount = some amt) :
    ai_analyze_claim "" gc incident fs =
      .ok ⟨if 40 < fs.score then "needs_review" else "valid",
           if 40 < fs.score then "manual_review" else "auto_approve",
           pyRound2 (amt * (if 60 < fs.score then 0.6 else 0.85)),
           fs.indicators,
           "Automated analysis based on rule-based system. Configure GEMINI_API_KEY for advanced AI insights."⟩ :=
  ai_no_key_run gc incident fs amt hamt

theorem pyRound2_850 : pyRound2 850 = 850 := by
  have h := pyRound2_natCast 850
  norm_num at h
  exact h

/-- Witness for C1: the spec's worked example, fraud score 50 and claimed
amount 1000 give `needs_review` / `manual_review` with payout 850. -/
theorem no_key_fallback_rule_witness :
    ai_analyze_claim "" (.error (PyError.apiError "unused"))
      ⟨"123 Main Street", "2024-01-15T10:00:00", "short", false, false, some 1000⟩
      ⟨50, "Medium", ["Insufficient details"], 0.75⟩ =
      .ok ⟨"needs_review", "manual_review", 850, ["Insufficient details"],
           "Automated analysis based on rule-based system. Configure GEMINI_API_KEY for advanced AI insights."⟩ := by
  rw [no_key_fallback_rule (.error (PyError.apiError "unused"))
    ⟨"123 Main Street", "2024-01-15T10:00:00", "short", false, false, some 1000⟩
    ⟨50, "Medium", ["Insufficient details"], 0.75⟩ 1000 rfl]
  dsimp only
  norm_num [pyRound2_850]

/-- Claim C2: the derived status is `approved` exactly when the
recommendation is `auto_approve` and the fraud score is below 30; failing
that it is `flagged` exactly when the recommendation is `reject` or the
score exceeds 80; failing both it is `processing`. -/
theorem status_derivation_cases (rec : String) (score : ℚ) :
    (deriveStatus rec score = "approved" ↔ rec = "auto_approve" ∧ score < 30) ∧
    (deriveStatus rec score = "flagged" ↔
      ¬(rec = "auto_approve" ∧ score < 30) ∧ (rec = "reject" ∨ 80 < score)) ∧
    (deriveStatus rec score = "processing" ↔
      ¬(rec = "auto_approve" ∧ score < 30) ∧ ¬(rec = "reject" ∨ 80 < score)) :=
  ⟨deriveStatus_approved_iff rec score, deriveStatus_flagged_iff rec score,
   deriveStatus_processing_iff rec score⟩

/-- Witness for C2: a `manual_review` recommendation with score 85 is
`flagged` (the score dominates). -/
theorem status_derivation_cases_witness :
    deriveStatus "manual_review" 85 = "flagged" :=
  ((status_derivation_cases "manual_review" 85).2.1).mpr (by decide)

/-- Claim C3 (failing run): a request whose `claimedAmount` is the JSON
`null` — accepted by the `Optional[float]` interface — makes the scorer
raise `TypeError` at `incident.claimedAmount > 50000` instead of returning
a `FraudScore`, so the scorer is not total on its accepted inputs. -/
theorem calc_fraud_none_amount_raises :
    calculate_fraud_score
      ⟨"123 Main Street", "2024-01-15T10:00:00",
       "Rear-ended at a stoplight, bumper damage to both vehicles.",
       false, false, none⟩ = .error PyError.typeError := rfl

/-- Claim C5: every returned fraud score lies in [0, 100], and the tiers are
exact: below 30 is `Low` with confidence 0.85, from 30 up to (not including)
60 is `Medium` with 0.75, and from 60 up is `High` with 0.90. -/
theorem fraud_score_range_and_tiers (incident : IncidentData) (amt : ℚ) (fs : FraudScore)
    (hamt : incident.claimedAmount = some amt)
    (hok : calculate_fraud_score incident = .ok fs) :
    (0 ≤ fs.score ∧ fs.score ≤ 100) ∧
    (fs.score < 30 → fs.risk_level = "Low" ∧ fs.confidence = 0.85) ∧
    (30 ≤ fs.score → fs.score < 60 → fs.risk_level = "Medium" ∧ fs.confidence = 0.75) ∧
    (60 ≤ fs.score → fs.risk_level = "High" ∧ fs.confidence = 0.90) := by
  rw [calculate_fraud_score_eq incident amt hamt, Except.ok.injEq] at hok
  subst hok
  dsimp only
  refine ⟨⟨fraudRawScore_nonneg incident amt,
           le_trans (fraudRawScore_le_80 incident amt) (by norm_num)⟩, ?_, ?_, ?_⟩
  · intro h30
    rw [if_pos h30, if_pos h30]
    exact ⟨rfl, rfl⟩
  · intro h30 h60
    rw [if_neg (not_lt.mpr h30), if_pos h60, if_neg (not_lt.mpr h30), if_pos h60]
    exact ⟨rfl, rfl⟩
  · intro h60
    rw [if_neg (by linarith), if_neg (not_lt.mpr h60), if_neg (by linarith), if_neg (not_lt.mpr h60)]
    exact ⟨rfl, rfl⟩

/-- Witness for C5: a score of exactly 30 (short description plus both
damage types) is `Medium` with confidence 0.75. -/
theorem fraud_score_range_and_tiers_witness :
    ∃ fs : FraudScore,
      calculate_fraud_score
        ⟨"123 Main Street", "2024-01-15T10:00:00", "short desc", true, true, some 1000⟩ = .ok fs ∧
      fs.score = 30 ∧ fs.risk_level = "Medium" ∧ fs.confidence = 0.75 := by
  have hraw : fraudRawScore
      ⟨"123 Main Street", "2024-01-15T10:00:00", "short desc", true, true, some 1000⟩ 1000 = 30 := by
    unfold fraudRawScore
    simp +decide only [if_true, if_false]
    norm_num
  have hind : fraudIndicators
      ⟨"123 Main Street", "2024-01-15T10:00:00", "short desc", true, true, some 1000⟩ 1000 =
      ["Insufficient details", "Multiple damage types"] := by decide
  have hok : calculate_fraud_score
      ⟨"123 Main Street", "2024-01-15T10:00:00", "short desc", true, true, some 1000⟩ =
      .ok ⟨30, "Medium", ["Insufficient details", "Multiple damage types"], 0.75⟩ := by
    rw [calculate_fraud_score_eq _ 1000 rfl, hraw, hind]
    norm_num
  exact ⟨⟨30, "Medium", ["Insufficient details", "Multiple damage types"], 0.75⟩, hok, rfl,
    (fraud_score_range_and_tiers _ 1000 _ rfl hok).2.2.1 (by decide) (by decide)⟩

theorem ai_error_run (key : String) (gc : Except PyError String)
    (incident : IncidentData) (fs : FraudScore) (amt : ℚ) (e : PyError)
    (hkey : key ≠ "") (hamt : incident.claimedAmount = some amt)
    (hfail : aiAttempt gc incident fs = .error e) :
    ai_analyze_claim key gc incident fs =
      .ok ⟨if 40 < fs.score then "needs_review" else "valid",
           if 40 < fs.score then "manual_review" else "auto_approve",
           pyRound2 (amt * (if 60 < fs.score then 0.6 else 0.85)),
           fs.indicators,
           "AI analysis fallback due to error: " ++ pyErrorStr e⟩ := by
  simp [ai_analyze_claim, hkey, hfail, hamt]

/-- Claim C6: whenever the configured collaborator attempt fails with any
error, the adjudicator does not propagate it: it returns the deterministic
fallback result, with the cause recorded in the reasoning text. -/
theorem ai_failure_fallback (key : String) (gc : Except PyError String)
    (incident : IncidentData) (fs : FraudScore) (amt : ℚ) (e : PyError)
    (hkey : key ≠ "") (hamt : incident.claimedAmount = some amt)
    (hfail : aiAttempt gc incident fs = .error e) :
    ai_analyze_claim key gc incident fs =
      .ok ⟨if 40 < fs.score then "needs_review" else "valid",
           if 40 < fs.score then "manual_review" else "auto_approve",
           pyRound2 (amt * (if 60 < fs.score then 0.6 else 0.85)),
           fs.indicators,
           "AI analysis fallback due to error: " ++ pyErrorStr e⟩ :=
  ai_error_run key gc incident fs amt e hkey hamt hfail

/-- Witness for C6: a network failure of the collaborator yields the
fallback result with the cause in the reasoning. -/
theorem ai_failure_fallback_witness :
    ai_analyze_claim "configured-key" (.error (PyError.apiError "network unreachable"))
      ⟨"123 Main Street", "2024-01-15T10:00:00", "short", false, false, some 1000⟩
      ⟨50, "Medium", ["Insufficient details"], 0.75⟩ =
      .ok ⟨"needs_review", "manual_review", 850, ["Insufficient details"],
           "AI analysis fallback due to error: network unreachable"⟩ := by
  rw [ai_failure_fallback "configured-key" (.error (PyError.apiError "network unreachable"))
    ⟨"123 Main Street", "2024-01-15T10:00:00", "short", false, false, some 1000⟩
    ⟨50, "Medium", ["Insufficient details"], 0.75⟩ 1000 (PyError.apiError "network unreachable")
    (by decide) rfl rfl]
  dsimp only
  norm_num [pyRound2_850, pyErrorStr]
  rfl

/-- Claim C4: a description shorter than 50 characters contributes exactly 15
with indicator "Insufficient details", and "High-risk incident type" is
absent even when a keyword is present; a description of length at least 50
containing a high-risk keyword (case-insensitively) contributes exactly 20
with indicator "High-risk incident type". -/
theorem description_rule_branches (incident : IncidentData) (amt : ℚ) (fs : FraudScore)
    (hamt : incident.claimedAmount = some amt)
    (hok : calculate_fraud_score incident = .ok fs) :
    (incident.description.length < 50 →
      "Insufficient details" ∈ fs.indicators ∧
      "High-risk incident type" ∉ fs.indicators ∧
      fs.score = (if 50000 < amt then 25 else 0) + 15
        + (if weekendIncident incident.dateTime then 10 else 0)
        + (if incident.injuries && incident.propertyDamage then 15 else 0)
        + (if incident.location = "" ∨ incident.location.length < 5 then 10 else 0)) ∧
    (50 ≤ incident.description.length → hasHighRiskKeyword incident.description = true →
      "High-risk incident type" ∈ fs.indicators ∧
      fs.score = (if 50000 < amt then 25 else 0) + 20
        + (if weekendIncident incident.dateTime then 10 else 0)
        + (if incident.injuries && incident.propertyDamage then 15 else 0)
        + (if incident.location = "" ∨ incident.location.length < 5 then 10 else 0)) := by
  rw [calculate_fraud_score_eq incident amt hamt, Except.ok.injEq] at hok
  subst hok
  dsimp only
  constructor
  · intro hlen
    refine ⟨?_, ?_, ?_⟩
    · unfold fraudIndicators
      rw [if_pos hlen]
      simp
    · unfold fraudIndicators
      rw [if_pos hlen]
      intro hmem
      simp only [List.mem_append] at hmem
      rcases hmem with ((((h | h) | h) | h) | h)
      · exact absurd (mem_if_singleton h) (by decide)
      · exact absurd (List.mem_singleton.mp h) (by decide)
      · exact absurd (mem_if_singleton h) (by decide)
      · exact absurd (mem_if_singleton h) (by decide)
      · exact absurd (mem_if_singleton h) (by decide)
    · unfold fraudRawScore
      rw [if_pos hlen]
  · intro hlen hkw
    have hnl : ¬ incident.description.length < 50 := by omega
    constructor
    · unfold fraudIndicators
      rw [if_neg hnl]
      simp [hkw]
    · unfold fraudRawScore
      rw [if_neg hnl]
      simp [hkw]

/-- Witness for C4: the six-character description "stolen" contains a keyword
but only triggers the length branch: +15, no "High-risk incident type". -/
theorem description_rule_branches_witness :
    ∃ fs : FraudScore,
      calculate_fraud_score
        ⟨"123 Main Street", "2024-01-15T10:00:00", "stolen", false, false, some 1000⟩ = .ok fs ∧
      "Insufficient details" ∈ fs.indicators ∧
      "High-risk incident type" ∉ fs.indicators ∧ fs.score = 15 := by
  have hraw : fraudRawScore
      ⟨"123 Main Street", "2024-01-15T10:00:00", "stolen", false, false, some 1000⟩ 1000 = 15 := by
    unfold fraudRawScore
    simp +decide only [if_true, if_false]
    norm_num
  have hind : fraudIndicators
      ⟨"123 Main Street", "2024-01-15T10:00:00", "stolen", false, false, some 1000⟩ 1000 =
      ["Insufficient details"] := by decide
  have hok : calculate_fraud_score
      ⟨"123 Main Street", "2024-01-15T10:00:00", "stolen", false, false, some 1000⟩ =
      .ok ⟨15, "Low", ["Insufficient details"], 0.85⟩ := by
    rw [calculate_fraud_score_eq _ 1000 rfl, hraw, hind]
    norm_num
  have h := (description_rule_branches _ 1000 _ rfl hok).1 (by decide)
  exact ⟨⟨15, "Low", ["Insufficient details"], 0.85⟩, hok, h.1, h.2.1, rfl⟩

/-- Claim C9: the raw accumulated score is at most 80, so the clamp at 100
never alters it; the returned score equals the plain sum of the triggered
rule weights, is a multiple of 5, and the two-decimal rounding is a no-op. -/
theorem raw_score_bound_and_round (incident : IncidentData) (amt : ℚ) (fs : FraudScore)
    (hamt : incident.claimedAmount = some amt)
    (hok : calculate_fraud_score incident = .ok fs) :
    fraudRawScore incident amt ≤ 80 ∧
    min (fraudRawScore incident amt) 100 = fraudRawScore incident amt ∧
    fs.score = fraudRawScore incident amt ∧
    (∃ n : ℕ, fs.score = ((5 * n : ℕ) : ℚ)) ∧
    pyRound2 fs.score = fs.score := by
  rw [calculate_fraud_score_eq incident amt hamt, Except.ok.injEq] at hok
  subst hok
  dsimp only
  obtain ⟨k, hk⟩ := fraudRawScoreN_dvd incident amt
  refine ⟨fraudRawScore_le_80 incident amt, min_fraudRawScore incident amt, rfl, ⟨k, ?_⟩,
    pyRound2_fraudRawScore incident amt⟩
  rw [fraudRawScore_eq_cast, hk]

/-- Witness for C9: on a concrete incident the returned score is the plain
raw sum and rounding is a no-op. -/
theorem raw_score_bound_and_round_witness :
    ∃ fs, calculate_fraud_score
        ⟨"123 Main Street", "2024-01-15T10:00:00", "short desc", true, true, some 1000⟩ = .ok fs ∧
      fs.score = fraudRawScore
        ⟨"123 Main Street", "2024-01-15T10:00:00", "short desc", true, true, some 1000⟩ 1000 ∧
      pyRound2 fs.score = fs.score := by
  have hraw : fraudRawScore
      ⟨"123 Main Street", "2024-01-15T10:00:00", "short desc", true, true, some 1000⟩ 1000 = 30 := by
    unfold fraudRawScore
    simp +decide only [if_true, if_false]
    norm_num
  have hind : fraudIndicators
      ⟨"123 Main Street", "2024-01-15T10:00:00", "short desc", true, true, some 1000⟩ 1000 =
      ["Insufficient details", "Multiple damage types"] := by decide
  have hok : calculate_fraud_score
      ⟨"123 Main Street", "2024-01-15T10:00:00", "short desc", true, true, some 1000⟩ =
      .ok ⟨30, "Medium", ["Insufficient details", "Multiple damage types"], 0.75⟩ := by
    rw [calculate_fraud_score_eq _ 1000 rfl, hraw, hind]
    norm_num
  have h := raw_score_bound_and_round _ 1000 _ rfl hok
  exact ⟨⟨30, "Medium", ["Insufficient details", "Multiple damage types"], 0.75⟩, hok,
    h.2.2.1, h.2.2.2.2⟩

/-- Claim C10: an analyzed claim with status "approved" has fraud score
below 30, hence risk level "Low" with confidence 0.85; a "Medium" or "High"
risk level excludes the "approved" status. -/
theorem approved_implies_low (key : String) (gc : Except PyError String) (now : String)
    (request : ClaimAnalysisRequest) (resp : ClaimAnalysisResponse)
    (hok : analyze_claim key gc now request = .ok resp) :
    (resp.status = "approved" →
      resp.fraud_score.score < 30 ∧ resp.fraud_score.risk_level = "Low" ∧
      resp.fraud_score.confidence = 0.85) ∧
    ((resp.fraud_score.risk_level = "Medium" ∨ resp.fraud_score.risk_level = "High") →
      resp.status ≠ "approved") := by
  unfold analyze_claim at hok
  cases h1 : calculate_fraud_score request.incidentData with
  | error e =>
    rw [h1] at hok
    dsimp only at hok
    exact Except.noConfusion hok
  | ok fs =>
    rw [h1] at hok
    dsimp only at hok
    cases h2 : ai_analyze_claim key gc request.incidentData fs with
    | error e =>
      rw [h2] at hok
      dsimp only at hok
      exact Except.noConfusion hok
    | ok ai =>
      rw [h2] at hok
      dsimp only at hok
      rw [Except.ok.injEq] at hok
      subst hok
      obtain ⟨amt, hamt⟩ := calc_ok_some_amount h1
      rw [calculate_fraud_score_eq request.incidentData amt hamt, Except.ok.injEq] at h1
      subst h1
      dsimp only
      constructor
      · intro hst
        have h30 := ((deriveStatus_approved_iff ai.recommendation
          (fraudRawScore request.incidentData amt)).mp hst).2
        exact ⟨h30, by rw [if_pos h30], by rw [if_pos h30]⟩
      · intro hml hst
        have h30 := ((deriveStatus_approved_iff ai.recommendation
          (fraudRawScore request.incidentData amt)).mp hst).2
        rcases hml with hml | hml
        · rw [if_pos h30] at hml
          exact absurd hml (by decide)
        · rw [if_pos h30] at hml
          exact absurd hml (by decide)

/-- Witness for C10: a clean claim is approved, and its risk level is "Low". -/
theorem approved_implies_low_witness :
    ∃ resp, analyze_claim "" (.error (PyError.apiError "unused")) "20240115103000"
        ⟨⟨"123 Main Street", "2024-01-15T10:00:00",
          "The other driver merged into my lane and clipped the rear door panel.",
          false, false, some 1000⟩, some "POL-001"⟩ = .ok resp ∧
      resp.status = "approved" ∧ resp.fraud_score.risk_level = "Low" := by
  have hraw : fraudRawScore
      ⟨"123 Main Street", "2024-01-15T10:00:00",
       "The other driver merged into my lane and clipped the rear door panel.",
       false, false, some 1000⟩ 1000 = 0 := by
    unfold fraudRawScore
    simp +decide only [if_true, if_false]
    norm_num
  have hind : fraudIndicators
      ⟨"123 Main Street", "2024-01-15T10:00:00",
       "The other driver merged into my lane and clipped the rear door panel.",
       false, false, some 1000⟩ 1000 = [] := by decide
  have hok1 : calculate_fraud_score
      ⟨"123 Main Street", "2024-01-15T10:00:00",
       "The other driver merged into my lane and clipped the rear door panel.",
       false, false, some 1000⟩ = .ok ⟨0, "Low", [], 0.85⟩ := by
    rw [calculate_fraud_score_eq _ 1000 rfl, hraw, hind]
    norm_num
  have hok2 : ai_analyze_claim "" (.error (PyError.apiError "unused"))
      ⟨"123 Main Street", "2024-01-15T10:00:00",
       "The other driver merged into my lane and clipped the rear door panel.",
       false, false, some 1000⟩ ⟨0, "Low", [], 0.85⟩ =
      .ok ⟨"valid", "auto_approve", 850, [],
           "Automated analysis based on rule-based system. Configure GEMINI_API_KEY for advanced AI insights."⟩ := by
    rw [ai_no_key_run (.error (PyError.apiError "unused")) _ _ 1000 rfl]
    dsimp only
    norm_num [pyRound2_850]
  have hresp : analyze_claim "" (.error (PyError.apiError "unused")) "20240115103000"
      ⟨⟨"123 Main Street", "2024-01-15T10:00:00",
        "The other driver merged into my lane and clipped the rear door panel.",
        false, false, some 1000⟩, some "POL-001"⟩ =
      .ok ⟨"CLM-20240115103000", ⟨0, "Low", [], 0.85⟩,
           ⟨"valid", "auto_approve", 850, [],
            "Automated analysis based on rule-based system. Configure GEMINI_API_KEY for advanced AI insights."⟩,
           "approved", "20240115103000"⟩ := by
    unfold analyze_claim
    dsimp only
    rw [hok1]
    dsimp only
    rw [hok2]
    dsimp only
    have hst : deriveStatus "auto_approve" ((0 : ℚ)) = "approved" :=
      (deriveStatus_approved_iff "auto_approve" 0).mpr ⟨rfl, by norm_num⟩
    rw [hst]
    rfl
  refine ⟨_, hresp, rfl, ?_⟩
  exact ((approved_implies_low "" (.error (PyError.apiError "unused")) "20240115103000"
    ⟨⟨"123 Main Street", "2024-01-15T10:00:00",
      "The other driver merged into my lane and clipped the rear door panel.",
      false, false, some 1000⟩, some "POL-001"⟩ _ hresp).1 rfl).2.1

/-! ### Occurrence lemmas for `splitFirst` (for the fence-stripping claims) -/

theorem splitFirst_eq_none_iff {sep : List Char} (hsep : sep ≠ []) :
    ∀ l, splitFirst sep l = none ↔ ¬ sep <:+: l := by
  intro l
  induction l with
  | nil =>
    have hp : sep.isPrefixOf ([] : List Char) = false := by
      cases sep with
      | nil => exact absurd rfl hsep
      | cons a t => rfl
    simp only [splitFirst, hp, Bool.false_eq_true, if_false]
    constructor
    · intro _ hinf
      exact hsep (List.eq_nil_of_length_eq_zero (Nat.le_zero.mp hinf.length_le))
    · intro _
      trivial
  | cons c l ih =>
    by_cases hp : sep.isPrefixOf (c :: l) = true
    · have hinf : sep <:+: c :: l := ( List.isPrefixOf_iff_prefix.mp hp).isInfix
      simp [splitFirst, hp, hinf]
    · have key : splitFirst sep (c :: l) = none ↔ splitFirst sep l = none := by
        simp only [splitFirst, hp, Bool.false_eq_true, if_false]
        cases hsp : splitFirst sep l with
        | none => simp
        | some p =>
          obtain ⟨pre, post⟩ := p
          simp
      rw [key, ih]
      constructor
      · intro hni hinf
        rcases List.infix_cons_iff.mp hinf with hpre | hinf2
        · exact hp ( List.isPrefixOf_iff_prefix.mpr hpre)
        · exact hni hinf2
      · intro hni hinf
        exact hni ( List.infix_cons hinf)

theorem splitFirst_self_append (sep : List Char) (hsep : sep ≠ []) (rest : List Char) :
    splitFirst sep (sep ++ rest) = some ([], rest) := by
  cases sep with
  | nil => exact absurd rfl hsep
  | cons a t =>
    have hp : (a :: t).isPrefixOf (a :: t ++ rest) = true :=
      List.isPrefixOf_iff_prefix.mpr ( List.prefix_append (a :: t) rest)
    rw [List.cons_append]
    simp only [splitFirst]
    rw [show (a :: (t ++ rest) = a :: t ++ rest) from rfl, hp]
    simp only [if_true]
    rw [List.drop_left]

theorem splitFirst_prepend (sep l₂ : List Char) :
    ∀ l₁, (∀ s, s <:+ l₁ → s ≠ [] → ¬ sep.isPrefixOf (s ++ l₂) = true) →
    splitFirst sep (l₁ ++ l₂) = (splitFirst sep l₂).map (fun p => (l₁ ++ p.1, p.2)) := by
  intro l₁
  induction l₁ with
  | nil =>
    intro _
    cases hsp : splitFirst sep l₂ with
    | none => simp [hsp]
    | some p =>
      obtain ⟨pre, post⟩ := p
      simp [hsp]
  | cons c l₁ ih =>
    intro h
    have hp : ¬ (sep.isPrefixOf (c :: (l₁ ++ l₂)) = true) := by
      have := h (c :: l₁) ( List.suffix_refl _) (by simp)
      simpa using this
    rw [List.cons_append]
    simp only [splitFirst, hp, if_false]
    rw [ih (fun s hs hne => h s (hs.trans ( List.suffix_cons c l₁)) hne)]
    cases hsp : splitFirst sep l₂ with
    | none => simp [hsp]
    | some p =>
      obtain ⟨pre, post⟩ := p
      simp [hsp]

theorem aux_prefix_newline :
    ∀ (sep x y : List Char), '\n' ∉ sep → sep <+: x ++ '\n' :: y → sep <+: x := by
  intro sep
  induction sep with
  | nil =>
    intro x y _ _
    exact List.nil_prefix
  | cons a t ih =>
    intro x y hn h
    cases x with
    | nil =>
      rw [List.nil_append, List.cons_prefix_cons] at h
      exact absurd (h.1 ▸ List.mem_cons_self a t) hn
    | cons b x' =>
      rw [List.cons_append, List.cons_prefix_cons] at h
      rw [List.cons_prefix_cons]
      exact ⟨h.1, ih x' y (fun hm => hn (List.mem_cons_of_mem a hm)) h.2⟩

theorem infix_append_newline (sep : List Char) (hsep : sep ≠ []) (hn : '\n' ∉ sep) :
    ∀ x y, sep <:+: x ++ '\n' :: y → sep <:+: x ∨ sep <:+: y := by
  intro x
  induction x with
  | nil =>
    intro y h
    rw [List.nil_append] at h
    rcases List.infix_cons_iff.mp h with hpre | hinf
    · cases sep with
      | nil => exact absurd rfl hsep
      | cons a t =>
        rw [List.cons_prefix_cons] at hpre
        exact absurd (hpre.1 ▸ List.mem_cons_self a t) hn
    · exact Or.inr hinf
  | cons c x' ih =>
    intro y h
    rw [List.cons_append] at h
    rcases List.infix_cons_iff.mp h with hpre | hinf
    · exact Or.inl (aux_prefix_newline sep (c :: x') y hn (by rw [List.cons_append]; exact hpre)).isInfix
    · rcases ih y hinf with h1 | h2
      · exact Or.inl ( List.infix_cons h1)
      · exact Or.inr h2

theorem suffix_ends {s : List Char} (l : List Char) (c : Char) (h : s <:+ l ++ [c]) (hne : s ≠ []) :
    ∃ s', s = s' ++ [c] ∧ s' <:+ l := by
  have h' : s.reverse <+: (l ++ [c]).reverse := by
    rw [← List.reverse_reverse s, ← List.reverse_reverse (l ++ [c])] at h
    exact List.reverse_prefix.mpr (by simpa using h)
  rw [List.reverse_append] at h'
  cases hs : s.reverse with
  | nil => exact absurd (by simpa using congrArg List.reverse hs) hne
  | cons a t =>
    rw [hs] at h'
    simp only [List.reverse_cons, List.reverse_nil, List.nil_append, List.singleton_append] at h'
    rw [List.cons_prefix_cons] at h'
    refine ⟨t.reverse, ?_, ?_⟩
    · have hrs : s = t.reverse ++ [a] := by
        have := congrArg List.reverse hs
        simpa using this
      rw [hrs, h'.1]
    · have := h'.2
      rw [← List.reverse_reverse l]
      exact ( List.reverse_suffix).mpr (by simpa using this)

/-! ### `strip` lemmas -/

theorem stripList_cons_space {c : Char} (hc : pyIsSpace c = true) (l : List Char) :
    stripList (c :: l) = stripList l := by
  unfold stripList
  rw [List.dropWhile_cons_of_pos hc]

theorem stripList_concat_space {c : Char} (hc : pyIsSpace c = true) (l : List Char) :
    stripList (l ++ [c]) = stripList l := by
  unfold stripList
  rw [List.dropWhile_append]
  by_cases h : (l.dropWhile pyIsSpace).isEmpty
  · rw [if_pos h]
    have h0 : l.dropWhile pyIsSpace = [] := by
      cases hd : l.dropWhile pyIsSpace with
      | nil => rfl
      | cons a t => rw [hd] at h; simp [List.isEmpty] at h
    rw [h0]
    simp [List.dropWhile_cons_of_pos hc]
  · rw [if_neg h]
    rw [List.reverse_append]
    simp only [List.reverse_cons, List.reverse_nil, List.nil_append, List.singleton_append]
    rw [List.dropWhile_cons_of_pos hc]

theorem stripList_sandwich (B : List Char) :
    stripList ('\n' :: (B ++ ['\n'])) = stripList B := by
  rw [stripList_cons_space (by decide), stripList_concat_space (by decide)]

theorem dropWhile_dropWhile (p : Char → Bool) (l : List Char) :
    (l.dropWhile p).dropWhile p = l.dropWhile p := by
  induction l with
  | nil => rfl
  | cons a l ih =>
    by_cases h : p a = true
    · rw [List.dropWhile_cons_of_pos h, ih]
    · have h' : p a = false := by simpa using h
      rw [List.dropWhile_cons_of_neg (by simp [h']), List.dropWhile_cons_of_neg (by simp [h'])]

theorem head_dropWhile_false {p : Char → Bool} :
    ∀ (l : List Char) {a : Char} {t : List Char}, l.dropWhile p = a :: t → p a = false := by
  intro l
  induction l with
  | nil => intro a t h; exact absurd h (by simp)
  | cons b l ih =>
    intro a t h
    by_cases hb : p b = true
    · rw [List.dropWhile_cons_of_pos hb] at h
      exact ih h
    · have hb' : p b = false := by simpa using hb
      rw [List.dropWhile_cons_of_neg (by simp [hb'])] at h
      rw [← (List.cons.injEq b l a t).mp h |>.1]
      exact hb'

theorem dropWhile_of_prefix_dropWhile {p : Char → Bool} {w l : List Char}
    (h : w <+: l.dropWhile p) : w.dropWhile p = w := by
  cases w with
  | nil => rfl
  | cons a t =>
    obtain ⟨r, hr⟩ := h
    have ha : p a = false := head_dropWhile_false l (by rw [← hr]; rfl)
    rw [List.dropWhile_cons_of_neg (by simp [ha])]

theorem stripList_idem (l : List Char) : stripList (stripList l) = stripList l := by
  unfold stripList
  have h2 : ((l.dropWhile pyIsSpace).reverse.dropWhile pyIsSpace) <:+ (l.dropWhile pyIsSpace).reverse :=
    List.dropWhile_suffix _
  have h3 : ((l.dropWhile pyIsSpace).reverse.dropWhile pyIsSpace).reverse <+: l.dropWhile pyIsSpace := by
    simpa using List.reverse_prefix.mpr h2
  rw [dropWhile_of_prefix_dropWhile h3, List.reverse_reverse, dropWhile_dropWhile]

theorem stripList_infix (l : List Char) : stripList l <:+: l := by
  unfold stripList
  have h1 : (l.dropWhile pyIsSpace) <:+ l := List.dropWhile_suffix _
  have h2 : ((l.dropWhile pyIsSpace).reverse.dropWhile pyIsSpace) <:+ (l.dropWhile pyIsSpace).reverse :=
    List.dropWhile_suffix _
  have h3 : ((l.dropWhile pyIsSpace).reverse.dropWhile pyIsSpace).reverse <+: l.dropWhile pyIsSpace := by
    simpa using List.reverse_prefix.mpr h2
  exact h3.isInfix.trans h1.isInfix

theorem stripList_append_ends {a b : Char} (ha : pyIsSpace a = false) (hb : pyIsSpace b = false)
    (l m : List Char) : stripList ((a :: l) ++ m ++ [b]) = (a :: l) ++ m ++ [b] := by
  unfold stripList
  have h1 : ((a :: l) ++ m ++ [b]).dropWhile pyIsSpace = (a :: l) ++ m ++ [b] := by
    rw [show ((a :: l) ++ m ++ [b] : List Char) = a :: (l ++ m ++ [b]) by simp]
    rw [List.dropWhile_cons_of_neg (by simp [ha])]
  rw [h1]
  have h2 : ((a :: l) ++ m ++ [b]).reverse = b :: (m.reverse ++ (l.reverse ++ [a])) := by
    simp
  rw [h2, List.dropWhile_cons_of_neg (by simp [hb]), ← h2, List.reverse_reverse]

/-! ### Fence-stripping computations -/

theorem tick3_not_infix_sandwich {B : List Char} (hB : ¬ "```".data <:+: B) :
    ¬ "```".data <:+: '\n' :: (B ++ ['\n']) := by
  intro h
  have h' : "```".data <:+: ([] : List Char) ++ '\n' :: (B ++ ['\n']) := by simpa using h
  rcases infix_append_newline "```".data (by decide) (by decide) [] (B ++ ['\n']) h' with h1 | h2
  · have := h1.length_le
    simp at this
  · rcases infix_append_newline "```".data (by decide) (by decide) B [] (by simpa using h2) with h3 | h4
    · exact hB h3
    · have := h4.length_le
      simp at this

theorem tick7_not_infix_inner {B : List Char} (hB : ¬ "```".data <:+: B) :
    ¬ "```json".data <:+: '\n' :: (B ++ '\n' :: "```".data) := by
  intro h
  have h' : "```json".data <:+: ([] : List Char) ++ '\n' :: (B ++ '\n' :: "```".data) := by
    simpa using h
  rcases infix_append_newline "```json".data (by decide) (by decide) [] _ h' with h1 | h2
  · have := h1.length_le
    simp at this
  · rcases infix_append_newline "```json".data (by decide) (by decide) B ("```".data) h2 with h3 | h4
    · exact hB ((show ("```".data : List Char) <:+: "```json".data from
        ⟨[], "json".data, by decide⟩).trans h3)
    · have := h4.length_le
      simp at this

theorem splitFirst_tick3_core {B : List Char} (hB : ¬ "```".data <:+: B) :
    splitFirst "```".data (('\n' :: B ++ ['\n']) ++ "```".data) =
      some ('\n' :: B ++ ['\n'], []) := by
  have hcond : ∀ s, s <:+ ('\n' :: B ++ ['\n']) → s ≠ [] →
      ¬ ("```".data : List Char).isPrefixOf (s ++ "```".data) = true := by
    intro s hs hne hpre
    obtain ⟨s', rfl, hs'⟩ := suffix_ends ('\n' :: B) '\n' (by simpa using hs) hne
    have hpre' : ("```".data : List Char) <+: s' ++ '\n' :: "```".data := by
      have := List.isPrefixOf_iff_prefix.mp hpre
      simpa [List.append_assoc] using this
    have h2 := aux_prefix_newline "```".data s' ("```".data) (by decide) hpre'
    have h3 : ("```".data : List Char) <:+: '\n' :: (B ++ ['\n']) := by
      have hsub : ("```".data : List Char) <:+: '\n' :: B := h2.isInfix.trans (hs'.isInfix)
      exact hsub.trans ( List.prefix_append ('\n' :: B) ['\n']).isInfix
    exact tick3_not_infix_sandwich hB h3
  have hself : splitFirst "```".data ("```".data : List Char) = some ([], []) := by
    have h := splitFirst_self_append "```".data (by decide) []
    rwa [List.append_nil] at h
  rw [splitFirst_prepend "```".data "```".data ('\n' :: B ++ ['\n']) hcond, hself]
  simp

theorem pyStrip_wrapJson_eq (B : String) :
    pyStrip (wrapJsonFence B) = wrapJsonFence B := by
  have hdata : (wrapJsonFence B).data = ("```json\n".data ++ B.data) ++ "\n```".data := rfl
  have e1 : ("```json\n".data : List Char) = Char.ofNat 96 :: "``json\n".data := by decide
  have e2 : ("\n```".data : List Char) = "\n``".data ++ [Char.ofNat 96] := by decide
  have hstrip : stripList ((wrapJsonFence B).data) = (wrapJsonFence B).data := by
    rw [hdata, e1, e2]
    have h := stripList_append_ends (a := Char.ofNat 96) (b := Char.ofNat 96)
      (by decide) (by decide) ("``json\n".data ++ B.data) ("\n``".data)
    calc stripList ((Char.ofNat 96 :: "``json\n".data ++ B.data) ++ ("\n``".data ++ [Char.ofNat 96]))
        = stripList ((Char.ofNat 96 :: ("``json\n".data ++ B.data)) ++ "\n``".data ++ [Char.ofNat 96]) := by
          simp [List.append_assoc]
      _ = (Char.ofNat 96 :: ("``json\n".data ++ B.data)) ++ "\n``".data ++ [Char.ofNat 96] := h
      _ = (Char.ofNat 96 :: "``json\n".data ++ B.data) ++ ("\n``".data ++ [Char.ofNat 96]) := by
          simp [List.append_assoc]
  show (⟨stripList ((wrapJsonFence B).data)⟩ : String) = wrapJsonFence B
  rw [hstrip]

theorem pyStrip_wrapPlain_eq (B : String) :
    pyStrip (wrapPlainFence B) = wrapPlainFence B := by
  have hdata : (wrapPlainFence B).data = ("```\n".data ++ B.data) ++ "\n```".data := rfl
  have e1 : ("```\n".data : List Char) = Char.ofNat 96 :: "``\n".data := by decide
  have e2 : ("\n```".data : List Char) = "\n``".data ++ [Char.ofNat 96] := by decide
  have hstrip : stripList ((wrapPlainFence B).data) = (wrapPlainFence B).data := by
    rw [hdata, e1, e2]
    have h := stripList_append_ends (a := Char.ofNat 96) (b := Char.ofNat 96)
      (by decide) (by decide) ("``\n".data ++ B.data) ("\n``".data)
    calc stripList ((Char.ofNat 96 :: "``\n".data ++ B.data) ++ ("\n``".data ++ [Char.ofNat 96]))
        = stripList ((Char.ofNat 96 :: ("``\n".data ++ B.data)) ++ "\n``".data ++ [Char.ofNat 96]) := by
          simp [List.append_assoc]
      _ = (Char.ofNat 96 :: ("``\n".data ++ B.data)) ++ "\n``".data ++ [Char.ofNat 96] := h
      _ = (Char.ofNat 96 :: "``\n".data ++ B.data) ++ ("\n``".data ++ [Char.ofNat 96]) := by
          simp [List.append_assoc]
  show (⟨stripList ((wrapPlainFence B).data)⟩ : String) = wrapPlainFence B
  rw [hstrip]

theorem tick7_not_infix_plain {B : List Char} (hB : ¬ "```".data <:+: B) :
    ¬ "```json".data <:+: "```".data ++ ('\n' :: (B ++ '\n' :: "```".data)) := by
  intro h
  rcases infix_append_newline "```json".data (by decide) (by decide) ("```".data) _ h with h1 | h2
  · exact absurd h1.length_le (by decide)
  · rcases infix_append_newline "```json".data (by decide) (by decide) B ("```".data) h2 with h3 | h4
    · exact hB ((show ("```".data : List Char) <:+: "```json".data from
        ⟨[], "json".data, by decide⟩).trans h3)
    · exact absurd h4.length_le (by decide)

theorem fenceExtract_strip_wrapJson (B : String) (hBn : splitFirst "```".data B.data = none) :
    pyStrip (fenceExtract (pyStrip (wrapJsonFence B))) = ⟨stripList B.data⟩ := by
  have hBinf : ¬ "```".data <:+: B.data := (splitFirst_eq_none_iff (by decide) B.data).mp hBn
  rw [pyStrip_wrapJson_eq]
  have hdata : (wrapJsonFence B).data = "```json".data ++ ('\n' :: (B.data ++ '\n' :: "```".data)) := rfl
  have hsplit1 : splitFirst "```json".data (wrapJsonFence B).data =
      some ([], '\n' :: (B.data ++ '\n' :: "```".data)) := by
    rw [hdata]
    exact splitFirst_self_append "```json".data (by decide) _
  have hin7 : pyIn "```json" (wrapJsonFence B) = true := by
    unfold pyIn
    rw [hsplit1]
    rfl
  have hsplit2 : splitFirst "```json".data ('\n' :: (B.data ++ '\n' :: "```".data)) = none :=
    (splitFirst_eq_none_iff (by decide) _).mpr (tick7_not_infix_inner hBinf)
  have hat1 : pySplitAt1 (wrapJsonFence B) "```json" =
      ⟨'\n' :: (B.data ++ '\n' :: "```".data)⟩ := by
    unfold pySplitAt1
    rw [hsplit1]
    dsimp only
    rw [hsplit2]
  have hcore : splitFirst "```".data ('\n' :: (B.data ++ '\n' :: "```".data)) =
      some ('\n' :: B.data ++ ['\n'], []) := by
    rw [show ('\n' :: (B.data ++ '\n' :: "```".data)) = ('\n' :: B.data ++ ['\n']) ++ "```".data by simp]
    exact splitFirst_tick3_core hBinf
  have hat0 : pySplitAt0 (⟨'\n' :: (B.data ++ '\n' :: "```".data)⟩ : String) "```" =
      ⟨'\n' :: B.data ++ ['\n']⟩ := by
    unfold pySplitAt0
    rw [show ((⟨'\n' :: (B.data ++ '\n' :: "```".data)⟩ : String)).data =
      '\n' :: (B.data ++ '\n' :: "```".data) from rfl, hcore]
  unfold fenceExtract
  rw [hin7]
  simp only [if_true]
  rw [hat1, hat0]
  show (⟨stripList ('\n' :: (B.data ++ ['\n']))⟩ : String) = ⟨stripList B.data⟩
  rw [stripList_sandwich]

theorem fenceExtract_strip_wrapPlain (B : String) (hBn : splitFirst "```".data B.data = none) :
    pyStrip (fenceExtract (pyStrip (wrapPlainFence B))) = ⟨stripList B.data⟩ := by
  have hBinf : ¬ "```".data <:+: B.data := (splitFirst_eq_none_iff (by decide) B.data).mp hBn
  rw [pyStrip_wrapPlain_eq]
  have hdata : (wrapPlainFence B).data = "```".data ++ ('\n' :: (B.data ++ '\n' :: "```".data)) := rfl
  have hno7 : splitFirst "```json".data (wrapPlainFence B).data = none := by
    rw [hdata]
    exact (splitFirst_eq_none_iff (by decide) _).mpr (tick7_not_infix_plain hBinf)
  have hin7 : pyIn "```json" (wrapPlainFence B) = false := by
    unfold pyIn
    rw [hno7]
    rfl
  have hsplit1 : splitFirst "```".data (wrapPlainFence B).data =
      some ([], '\n' :: (B.data ++ '\n' :: "```".data)) := by
    rw [hdata]
    exact splitFirst_self_append "```".data (by decide) _
  have hin3 : pyIn "```" (wrapPlainFence B) = true := by
    unfold pyIn
    rw [hsplit1]
    rfl
  have hcore : splitFirst "```".data ('\n' :: (B.data ++ '\n' :: "```".data)) =
      some ('\n' :: B.data ++ ['\n'], []) := by
    rw [show ('\n' :: (B.data ++ '\n' :: "```".data)) = ('\n' :: B.data ++ ['\n']) ++ "```".data by simp]
    exact splitFirst_tick3_core hBinf
  have hat1 : pySplitAt1 (wrapPlainFence B) "```" = ⟨'\n' :: B.data ++ ['\n']⟩ := by
    unfold pySplitAt1
    rw [hsplit1]
    dsimp only
    rw [hcore]
  have hnone : splitFirst "```".data ('\n' :: B.data ++ ['\n']) = none :=
    (splitFirst_eq_none_iff (by decide) _).mpr (tick3_not_infix_sandwich hBinf)
  have hat0 : pySplitAt0 (⟨'\n' :: B.data ++ ['\n']⟩ : String) "```" =
      ⟨'\n' :: B.data ++ ['\n']⟩ := by
    unfold pySplitAt0
    rw [show ((⟨'\n' :: B.data ++ ['\n']⟩ : String)).data = '\n' :: B.data ++ ['\n'] from rfl, hnone]
  unfold fenceExtract
  rw [hin7]
  simp only [Bool.false_eq_true, if_false]
  rw [hin3]
  simp only [if_true]
  rw [hat1, hat0]
  show (⟨stripList ('\n' :: (B.data ++ ['\n']))⟩ : String) = ⟨stripList B.data⟩
  rw [stripList_sandwich]

theorem fenceExtract_strip_unwrapped (B : String) (hBn : splitFirst "```".data B.data = none) :
    pyStrip (fenceExtract (pyStrip B)) = ⟨stripList B.data⟩ := by
  have hBinf : ¬ "```".data <:+: B.data := (splitFirst_eq_none_iff (by decide) B.data).mp hBn
  have hsinf : stripList B.data <:+: B.data := stripList_infix B.data
  have h3 : ¬ "```".data <:+: stripList B.data := fun h => hBinf (h.trans hsinf)
  have h7' : ¬ "```json".data <:+: stripList B.data := fun h =>
    hBinf (((show ("```".data : List Char) <:+: "```json".data from
      ⟨[], "json".data, by decide⟩).trans h).trans hsinf)
  have hin7 : pyIn "```json" (pyStrip B) = false := by
    unfold pyIn
    show (splitFirst "```json".data (stripList B.data)).isSome = false
    rw [(splitFirst_eq_none_iff (by decide) _).mpr h7']
    rfl
  have hin3 : pyIn "```" (pyStrip B) = false := by
    unfold pyIn
    show (splitFirst "```".data (stripList B.data)).isSome = false
    rw [(splitFirst_eq_none_iff (by decide) _).mpr h3]
    rfl
  unfold fenceExtract
  rw [hin7]
  simp only [Bool.false_eq_true, if_false]
  rw [hin3]
  simp only [Bool.false_eq_true, if_false]
  show (⟨stripList (stripList B.data)⟩ : String) = ⟨stripList B.data⟩
  rw [stripList_idem]

theorem tryBuild_wrapJson_eq (incident : IncidentData) (fs : FraudScore) (B : String)
    (hBn : splitFirst "```".data B.data = none) :
    tryBuildAnalysis incident fs (wrapJsonFence B) = tryBuildAnalysis incident fs B := by
  have h1 := fenceExtract_strip_wrapJson B hBn
  have h2 := fenceExtract_strip_unwrapped B hBn
  simp only [tryBuildAnalysis]
  rw [h1, h2]

theorem tryBuild_wrapPlain_eq (incident : IncidentData) (fs : FraudScore) (B : String)
    (hBn : splitFirst "```".data B.data = none) :
    tryBuildAnalysis incident fs (wrapPlainFence B) = tryBuildAnalysis incident fs B := by
  have h1 := fenceExtract_strip_wrapPlain B hBn
  have h2 := fenceExtract_strip_unwrapped B hBn
  simp only [tryBuildAnalysis]
  rw [h1, h2]

/-- Claim C8 (amended): for every AI-collaborator response body that does not
contain the substring "```", wrapping it in ```json fences (and likewise in
plain ``` fences) parses to the same AdjudicationResult as the unwrapped
body. -/
theorem fenced_wrap_transparent (key : String) (incident : IncidentData) (fs : FraudScore)
    (B : String) (hB : pyIn "```" B = false) :
    ai_analyze_claim key (.ok (wrapJsonFence B)) incident fs =
      ai_analyze_claim key (.ok B) incident fs ∧
    ai_analyze_claim key (.ok (wrapPlainFence B)) incident fs =
      ai_analyze_claim key (.ok B) incident fs := by
  have hBn : splitFirst "```".data B.data = none := by
    unfold pyIn at hB
    cases h : splitFirst "```".data B.data with
    | none => rfl
    | some p =>
      rw [h] at hB
      simp at hB
  have hjson := tryBuild_wrapJson_eq incident fs B hBn
  have hplain := tryBuild_wrapPlain_eq incident fs B hBn
  constructor
  · unfold ai_analyze_claim
    by_cases hk : key = ""
    · rw [if_pos hk, if_pos hk]
    · rw [if_neg hk, if_neg hk]
      unfold aiAttempt
      dsimp only
      rw [hjson]
  · unfold ai_analyze_claim
    by_cases hk : key = ""
    · rw [if_pos hk, if_pos hk]
    · rw [if_neg hk, if_neg hk]
      unfold aiAttempt
      dsimp only
      rw [hplain]

/-- Witness for the amended C8 on a concrete fenceless JSON body. -/
theorem fenced_wrap_transparent_witness :
    pyIn "```" "\x7b\"validity\": \"valid\"\x7d" = false ∧
    ai_analyze_claim "configured-key" (.ok (wrapJsonFence "\x7b\"validity\": \"valid\"\x7d"))
      ⟨"123 Main Street", "2024-01-15T10:00:00", "short", false, false, some 1000⟩
      ⟨50, "Medium", [], 0.75⟩ =
    ai_analyze_claim "configured-key" (.ok "\x7b\"validity\": \"valid\"\x7d")
      ⟨"123 Main Street", "2024-01-15T10:00:00", "short", false, false, some 1000⟩
      ⟨50, "Medium", [], 0.75⟩ :=
  ⟨by decide,
   (fenced_wrap_transparent "configured-key"
     ⟨"123 Main Street", "2024-01-15T10:00:00", "short", false, false, some 1000⟩
     ⟨50, "Medium", [], 0.75⟩ "\x7b\"validity\": \"valid\"\x7d" (by decide)).1⟩

/-- Counterexample to C8 as stated: a response body containing "```" parses
differently wrapped and unwrapped.  Unwrapped, the fence stripper extracts
the embedded JSON object and the AI result is used; wrapped in ```json
fences, the extraction yields non-JSON text and the adjudicator falls back. -/
theorem fenced_wrap_counterexample :
    ai_analyze_claim "configured-key"
      (.ok (wrapJsonFence "x```\x7b\"estimated_payout\": 1\x7d```y"))
      ⟨"123 Main Street", "2024-01-15T10:00:00", "short", false, false, some 1000⟩
      ⟨50, "Medium", [], 0.75⟩ ≠
    ai_analyze_claim "configured-key"
      (.ok "x```\x7b\"estimated_payout\": 1\x7d```y")
      ⟨"123 Main Street", "2024-01-15T10:00:00", "short", false, false, some 1000⟩
      ⟨50, "Medium", [], 0.75⟩ := by
  have hL : ai_analyze_claim "configured-key"
      (.ok (wrapJsonFence "x```\x7b\"estimated_payout\": 1\x7d```y"))
      ⟨"123 Main Street", "2024-01-15T10:00:00", "short", false, false, some 1000⟩
      ⟨50, "Medium", [], 0.75⟩ =
      .ok ⟨if 40 < (50 : ℚ) then "needs_review" else "valid",
           if 40 < (50 : ℚ) then "manual_review" else "auto_approve",
           pyRound2 (1000 * (if 60 < (50 : ℚ) then 0.6 else 0.85)),
           ([] : List String),
           "AI analysis fallback due to error: " ++ pyErrorStr PyError.jsonDecodeError⟩ :=
    ai_error_run "configured-key"
      (.ok (wrapJsonFence "x```\x7b\"estimated_payout\": 1\x7d```y"))
      ⟨"123 Main Street", "2024-01-15T10:00:00", "short", false, false, some 1000⟩
      ⟨50, "Medium", [], 0.75⟩ 1000 PyError.jsonDecodeError (by decide) rfl (by decide)
  have hR : (fun r => match r with
      | Except.ok a => a.reasoning
      | Except.error _ => "") (ai_analyze_claim "configured-key"
        (.ok "x```\x7b\"estimated_payout\": 1\x7d```y")
        ⟨"123 Main Street", "2024-01-15T10:00:00", "short", false, false, some 1000⟩
        ⟨50, "Medium", [], 0.75⟩) = "AI analysis completed" := rfl
  intro h
  have h2 := congrArg (fun r => match r with
    | Except.ok a => a.reasoning
    | Except.error _ => "") h
  rw [hR] at h2
  rw [hL] at h2
  dsimp only at h2
  exact absurd h2 (by decide)
